import Mathlib

/-!
Verification of `mlpack/distributed_kpca/kpca_result.h` (class
`mlpack::distributed_kpca::KpcaResult`).

Dense matrices (`arma::mat`) are modelled as a structure holding the two
dimensions and a column-major list of entries; `arma::vec` is a plain list.
64-bit floating point values are modelled as real numbers, and the C `sqrt`
as `Real.sqrt` (all claims restrict variances to be nonnegative, where the
two agree up to rounding).  Unchecked out-of-bounds element access —
undefined behavior in the C++ — is modelled by `Option`-valued access, with
`none` standing for the out-of-range case.
-/

namespace DistributedKpca

/-- Model of `arma::mat`: a dense matrix in column-major storage.
`arma::mat::at(k, i)` addresses `data[i * n_rows + k]`. -/
structure Mat where
  n_rows : ℕ
  n_cols : ℕ
  data : List ℝ

/-- An `arma::mat` is well formed when its storage has exactly
`n_rows * n_cols` entries (always true of the C++ object). -/
def Mat.WF (m : Mat) : Prop := m.data.length = m.n_rows * m.n_cols

instance (m : Mat) : Decidable m.WF := by unfold Mat.WF; infer_instance

/-- Reads `arma::mat::at(k, i)` as `m.at_ k i`: column-major unchecked read.
Out-of-range positions read the default 0 (the claims only ever use
in-range reads of well-formed matrices). -/
def Mat.at_ (m : Mat) (k i : ℕ) : ℝ := m.data.getD (i * m.n_rows + k) 0

/-- The empty `arma::mat`, the state of every matrix field after the
default constructor. -/
def emptyMat : Mat := ⟨0, 0, []⟩

/-- Models `arma::mat::set_size(r, c)`: reshapes to `r × c`.  When the size
changes armadillo reallocates and leaves the contents unspecified; the
model keeps a truncation/zero-padding of the old storage as a concrete
stand-in for the unspecified contents (every claim zeroes or overwrites
the data right afterwards, so no claim depends on this choice). -/
def Mat.set_size (m : Mat) (r c : ℕ) : Mat :=
  ⟨r, c, m.data.take (r * c) ++ List.replicate (r * c - (m.data.take (r * c)).length) 0⟩

/-- Models `arma::mat::zeros()`: every entry becomes 0, dimensions kept. -/
def Mat.zeros (m : Mat) : Mat :=
  ⟨m.n_rows, m.n_cols, List.replicate (m.n_rows * m.n_cols) 0⟩

/-- Builds an `r × c` matrix whose entry at `(k, i)` is `f k i`, stored in
column-major order (index `i * r + k`), mirroring the write order of the
`for(i) for(k)` loops in the source. -/
def Mat.build (r c : ℕ) (f : ℕ → ℕ → ℝ) : Mat :=
  ⟨r, c, (List.range (r * c)).map (fun idx => f (idx % r) (idx / r))⟩

theorem Mat.build_WF (r c : ℕ) (f : ℕ → ℕ → ℝ) : (Mat.build r c f).WF := by
  simp [Mat.build, Mat.WF]

theorem Mat.build_at (r c : ℕ) (f : ℕ → ℕ → ℝ) (k i : ℕ)
    (hk : k < r) (hi : i < c) : (Mat.build r c f).at_ k i = f k i := by
  have hr : 0 < r := by omega
  have hlt : i * r + k < r * c := by
    calc i * r + k < i * r + r := by omega
    _ = (i + 1) * r := by ring
    _ ≤ c * r := Nat.mul_le_mul_right r hi
    _ = r * c := Nat.mul_comm c r
  have hmod : (i * r + k) % r = k := by
    rw [Nat.add_comm, Nat.add_mul_mod_self_right, Nat.mod_eq_of_lt hk]
  have hdiv : (i * r + k) / r = i := by
    rw [Nat.add_comm, Nat.add_mul_div_right _ _ hr, Nat.div_eq_of_lt hk]
    omega
  unfold Mat.build Mat.at_
  rw [List.getD_eq_getElem _ _ (by simpa using hlt)]
  simp [hmod, hdiv]

/-- Modelled from the spec: `core::monte_carlo::MeanVariancePairMatrix`
(from `core/monte_carlo/mean_variance_pair_matrix.h`, not among the given
sources) is a statistic container addressable by (component `k`,
query-point `i`) whose entries expose `sample_mean()` and
`sample_mean_variance()` (the variance of the mean estimator). -/
structure MeanVariancePairMatrix where
  n_rows : ℕ
  n_cols : ℕ
  sample_mean : ℕ → ℕ → ℝ
  sample_mean_variance : ℕ → ℕ → ℝ

/-- Models `kernel_sum.get(k, i)`: reads one mean/variance pair.  `none` models
the out-of-range access (undefined behavior in the C++). -/
def MeanVariancePairMatrix.get (s : MeanVariancePairMatrix) (k i : ℕ) :
    Option (ℝ × ℝ) :=
  if k < s.n_rows ∧ i < s.n_cols then
    some (s.sample_mean k i, s.sample_mean_variance k i)
  else none

/-- The fields of `mlpack::distributed_kpca::KpcaResult`. -/
structure KpcaResult where
  kpca_projections_l : Mat
  kpca_projections : Mat
  kpca_projections_u : Mat
  kernel_eigenvalues : List ℝ
  covariance_eigenvectors : Mat
  reference_projections : Mat
  kpca_components : Mat

/-- Models `KpcaResult::SetZero()`: zeroes the three projection bound matrices
(and nothing else). -/
def KpcaResult.SetZero (r : KpcaResult) : KpcaResult :=
  { r with
    kpca_projections_l := r.kpca_projections_l.zeros
    kpca_projections := r.kpca_projections.zeros
    kpca_projections_u := r.kpca_projections_u.zeros }

/-- The default constructor `KpcaResult()`: all matrices empty (the
constructor calls `SetZero()`, a no-op on empty matrices). -/
def defaultResult : KpcaResult :=
  KpcaResult.SetZero ⟨emptyMat, emptyMat, emptyMat, [], emptyMat, emptyMat, emptyMat⟩

/-- Models `KpcaResult::Init(num_components, num_reference_points, query_points)`:
resizes the three bound matrices to `num_components × query_points`
(`num_reference_points` is accepted but unused) and calls `SetZero()`. -/
def KpcaResult.Init (r : KpcaResult)
    (num_components _num_reference_points query_points : ℕ) : KpcaResult :=
  KpcaResult.SetZero
    { r with
      kpca_projections_l := r.kpca_projections_l.set_size num_components query_points
      kpca_projections := r.kpca_projections.set_size num_components query_points
      kpca_projections_u := r.kpca_projections_u.set_size num_components query_points }

/-- The scalar stored by `Export` into `kpca_projections_l_.at(k, i)`:
`(sample_mean - correction_term_in - num_standard_deviations * sqrt(sample_mean_variance)) * mult_const`. -/
noncomputable def exportLower
    (num_standard_deviations mult_const correction_term_in m v : ℝ) : ℝ :=
  (m - correction_term_in - num_standard_deviations * Real.sqrt v) * mult_const

/-- The scalar stored by `Export` into `kpca_projections_.at(k, i)`:
`(sample_mean - correction_term_in) * mult_const`. -/
def exportCenter (mult_const correction_term_in m : ℝ) : ℝ :=
  (m - correction_term_in) * mult_const

/-- The scalar stored by `Export` into `kpca_projections_u_.at(k, i)`:
`(sample_mean - correction_term_in + num_standard_deviations * sqrt(sample_mean_variance)) * mult_const`. -/
noncomputable def exportUpper
    (num_standard_deviations mult_const correction_term_in m v : ℝ) : ℝ :=
  (m - correction_term_in + num_standard_deviations * Real.sqrt v) * mult_const

/-- Models `KpcaResult::Export`: for every `i` below `kpca_projections_.n_cols` and
`k` below `kpca_projections_.n_rows` (the extent is taken from the center
matrix alone; no shape validation is performed), the loops read
`kernel_sum.get(k, i)` and overwrite the `(k, i)` entries of the three bound
matrices with `exportLower` / `exportCenter` / `exportUpper`.  After `Init`
the three matrices share the center's extent, so the loops' effect is the
extent-shaped rebuild below.  The guard states that every read the loops
perform is in range in `kernel_sum`; `none` models the out-of-range
access (undefined behavior in the C++). -/
noncomputable def KpcaResult.Export (r : KpcaResult)
    (num_standard_deviations mult_const correction_term_in : ℝ)
    (kernel_sum : MeanVariancePairMatrix) : Option KpcaResult :=
  if ∀ k < r.kpca_projections.n_rows, ∀ i < r.kpca_projections.n_cols,
      (kernel_sum.get k i).isSome then
    some
      { r with
        kpca_projections_l :=
          Mat.build r.kpca_projections.n_rows r.kpca_projections.n_cols
            (fun k i => exportLower num_standard_deviations mult_const
              correction_term_in (kernel_sum.sample_mean k i)
              (kernel_sum.sample_mean_variance k i))
        kpca_projections :=
          Mat.build r.kpca_projections.n_rows r.kpca_projections.n_cols
            (fun k i => exportCenter mult_const correction_term_in
              (kernel_sum.sample_mean k i))
        kpca_projections_u :=
          Mat.build r.kpca_projections.n_rows r.kpca_projections.n_cols
            (fun k i => exportUpper num_standard_deviations mult_const
              correction_term_in (kernel_sum.sample_mean k i)
              (kernel_sum.sample_mean_variance k i)) }
  else none

/-- Outcome of `KpcaResult::Print`.  The source never constructs an error
value: a failed `fopen` returns `NULL`, which the code passes to
`fprintf`/`fclose` unchecked — undefined behavior. -/
inductive EmitOutcome
  | ok (projection_lines component_lines : List (List ℝ))
  | ioError (path : String)
  | undefinedBehavior

/-- Models `KpcaResult::Print(kpca_components_file_name, kpca_projections_file_name)`:
opens the projections file first and writes one line per column `i` of
`kpca_projections_` holding entries `at(j, i)` for each row `j`; then opens
the components file and writes one line per column `j` of `kpca_components_`
holding entries `at(i, j)` for each row `i`.  `openOk` models whether
`fopen(path, "w+")` succeeds; on failure the code proceeds with the `NULL`
stream (undefined behavior). -/
def KpcaResult.Print (r : KpcaResult) (openOk : String → Bool)
    (kpca_components_file_name kpca_projections_file_name : String) :
    EmitOutcome :=
  if openOk kpca_projections_file_name then
    let projection_lines :=
      (List.range r.kpca_projections.n_cols).map (fun i =>
        (List.range r.kpca_projections.n_rows).map (fun j =>
          r.kpca_projections.at_ j i))
    if openOk kpca_components_file_name then
      let component_lines :=
        (List.range r.kpca_components.n_cols).map (fun j =>
          (List.range r.kpca_components.n_rows).map (fun i =>
            r.kpca_components.at_ i j))
      EmitOutcome.ok projection_lines component_lines
    else EmitOutcome.undefinedBehavior
  else EmitOutcome.undefinedBehavior

/-- Postcondition of the `std::sort` call in
`set_eigendecomposition_results`: the sorted vector is a permutation of the
input pairs, ordered by the comparator `lhs.second > rhs.second` — i.e.
non-increasing in the eigenvalue.  The relative order of tied pairs is
unspecified by `std::sort`, so any list satisfying this predicate is a
possible result. -/
def IsSortOutput (input output : List (ℕ × ℝ)) : Prop :=
  output.Perm input ∧ output.Pairwise (fun a b => b.2 ≤ a.2)

/-- Models `KpcaResult::set_eigendecomposition_results`.  The code builds the pairs
`(i, kernel_eigenvalues_in[i])` (that is, `kernel_eigenvalues_in.enum`) and
sorts them with `std::sort`; since the tie order of `std::sort` is
unspecified, the sorted vector `sorted_eigenvalues` is passed explicitly and
constrained by `IsSortOutput` in the theorems.  The code then sizes
`kernel_eigenvalues_` and `covariance_eigenvectors_` by the input matrix's
column count and fills, for each output column `i`, the eigenvalue
`sorted_eigenvalues[i].second` and the column copied from input column
`sorted_eigenvalues[i].first`. -/
def KpcaResult.set_eigendecomposition_results (r : KpcaResult)
    (kernel_eigenvalues_in : List ℝ) (covariance_eigenvectors_in : Mat)
    (sorted_eigenvalues : List (ℕ × ℝ)) : KpcaResult :=
  { r with
    kernel_eigenvalues :=
      (List.range covariance_eigenvectors_in.n_cols).map
        (fun i => (sorted_eigenvalues.getD i (0, 0)).2)
    covariance_eigenvectors :=
      Mat.build covariance_eigenvectors_in.n_rows
        covariance_eigenvectors_in.n_cols
        (fun j i =>
          covariance_eigenvectors_in.at_ j (sorted_eigenvalues.getD i (0, 0)).1) }

/-! ## Serialization model

The serialized representation (`KpcaResult::serialize` together with the
boost/armadillo archive encodings) is modelled as a flat token stream: each
matrix is written as its row count, its column count and its entries; each
vector as its length and its entries. -/

/-- One token of the wire stream: a dimension or an entry. -/
inductive WireTok
  | natTok (n : ℕ)
  | realTok (x : ℝ)

/-- Encoding of one dense matrix: row count, column count, entries. -/
def encodeMat (m : Mat) : List WireTok :=
  WireTok.natTok m.n_rows :: WireTok.natTok m.n_cols :: m.data.map WireTok.realTok

/-- Encoding of one dense vector: length, entries. -/
def encodeVec (v : List ℝ) : List WireTok :=
  WireTok.natTok v.length :: v.map WireTok.realTok

/-- Models `KpcaResult::serialize` on an output archive: the five fields in
the fixed order `kpca_projections_l_`, `kpca_projections_`,
`kpca_projections_u_`, `kernel_eigenvalues_`, `covariance_eigenvectors_`.
`reference_projections_` and `kpca_components_` are not written. -/
def KpcaResult.save (r : KpcaResult) : List WireTok :=
  encodeMat r.kpca_projections_l ++ encodeMat r.kpca_projections ++
    encodeMat r.kpca_projections_u ++ encodeVec r.kernel_eigenvalues ++
    encodeMat r.covariance_eigenvectors

/-- Reads `n` entry tokens from the stream. -/
def takeReals : ℕ → List WireTok → Option (List ℝ × List WireTok)
  | 0, toks => some ([], toks)
  | n + 1, WireTok.realTok x :: toks =>
    (takeReals n toks).map (fun p => (x :: p.1, p.2))
  | _ + 1, _ => none

/-- Reads one dense matrix from the stream. -/
def decodeMat : List WireTok → Option (Mat × List WireTok)
  | WireTok.natTok r :: WireTok.natTok c :: toks =>
    (takeReals (r * c) toks).map (fun p => (⟨r, c, p.1⟩, p.2))
  | _ => none

/-- Reads one dense vector from the stream. -/
def decodeVec : List WireTok → Option (List ℝ × List WireTok)
  | WireTok.natTok n :: toks => takeReals n toks
  | _ => none

/-- Models `KpcaResult::serialize` on an input archive applied to a freshly
default-constructed result: reads the five fields in the same fixed order;
`reference_projections_` and `kpca_components_` are not part of the format
and keep the default (empty) values. -/
def KpcaResult.load (toks : List WireTok) : Option KpcaResult :=
  (decodeMat toks).bind (fun pl =>
    (decodeMat pl.2).bind (fun pc =>
      (decodeMat pc.2).bind (fun pu =>
        (decodeVec pu.2).bind (fun pe =>
          (decodeMat pe.2).bind (fun pv =>
            some { defaultResult with
                   kpca_projections_l := pl.1
                   kpca_projections := pc.1
                   kpca_projections_u := pu.1
                   kernel_eigenvalues := pe.1
                   covariance_eigenvectors := pv.1 })))))

/-! ## Helper lemmas -/

theorem takeReals_append (xs : List ℝ) (rest : List WireTok) :
    takeReals xs.length (xs.map WireTok.realTok ++ rest) = some (xs, rest) := by
  induction xs with
  | nil => rfl
  | cons x xs ih => simp [takeReals, ih]

theorem decodeMat_encode (m : Mat) (hm : m.WF) (rest : List WireTok) :
    decodeMat (encodeMat m ++ rest) = some (m, rest) := by
  show (takeReals (m.n_rows * m.n_cols) (m.data.map WireTok.realTok ++ rest)).map
      (fun p => ((⟨m.n_rows, m.n_cols, p.1⟩ : Mat), p.2)) = some (m, rest)
  rw [← hm, takeReals_append]
  rfl

theorem decodeVec_encode (v : List ℝ) (rest : List WireTok) :
    decodeVec (encodeVec v ++ rest) = some (v, rest) := by
  unfold decodeVec encodeVec
  simp [takeReals_append]

theorem MeanVariancePairMatrix.get_isSome (s : MeanVariancePairMatrix)
    (k i : ℕ) : (s.get k i).isSome = true ↔ k < s.n_rows ∧ i < s.n_cols := by
  unfold MeanVariancePairMatrix.get
  split <;> simp_all

theorem Mat.build_congr (r c : ℕ) (f g : ℕ → ℕ → ℝ)
    (h : ∀ k < r, ∀ i < c, f k i = g k i) : Mat.build r c f = Mat.build r c g := by
  unfold Mat.build
  congr 1
  apply List.map_congr_left
  intro idx hidx
  rw [List.mem_range] at hidx
  have hr : 0 < r := by
    rcases Nat.eq_zero_or_pos r with h0 | h0
    · subst h0; simp at hidx
    · exact h0
  exact h _ (Nat.mod_lt _ hr) _
    ((Nat.div_lt_iff_lt_mul hr).mpr (by rw [Nat.mul_comm]; exact hidx))

theorem KpcaResult.Export_eq_some (r r' : KpcaResult)
    (num_standard_deviations mult_const correction_term_in : ℝ)
    (kernel_sum : MeanVariancePairMatrix)
    (h : r.Export num_standard_deviations mult_const correction_term_in
      kernel_sum = some r') :
    r'.kpca_projections_l =
      Mat.build r.kpca_projections.n_rows r.kpca_projections.n_cols
        (fun k i => exportLower num_standard_deviations mult_const
          correction_term_in (kernel_sum.sample_mean k i)
          (kernel_sum.sample_mean_variance k i)) ∧
    r'.kpca_projections =
      Mat.build r.kpca_projections.n_rows r.kpca_projections.n_cols
        (fun k i => exportCenter mult_const correction_term_in
          (kernel_sum.sample_mean k i)) ∧
    r'.kpca_projections_u =
      Mat.build r.kpca_projections.n_rows r.kpca_projections.n_cols
        (fun k i => exportUpper num_standard_deviations mult_const
          correction_term_in (kernel_sum.sample_mean k i)
          (kernel_sum.sample_mean_variance k i)) := by
  unfold KpcaResult.Export at h
  split at h
  · have h2 := Option.some.inj h
    subst h2
    exact ⟨rfl, rfl, rfl⟩
  · cases h

theorem Mat.at_replicate_zero (rows cols n k i : ℕ) :
    (⟨rows, cols, List.replicate n 0⟩ : Mat).at_ k i = 0 := by
  unfold Mat.at_
  rcases Nat.lt_or_ge (i * rows + k) n with h | h
  · rw [List.getD_eq_getElem _ _ (by simpa using h)]
    simp
  · rw [List.getD_eq_default _ _ (by simpa using h)]

theorem sqrtFour : Real.sqrt 4 = 2 := by
  rw [show (4 : ℝ) = 2 ^ 2 by norm_num, Real.sqrt_sq (by norm_num : (0:ℝ) ≤ 2)]

theorem map_getD_range (l : List (ℕ × ℝ)) (d : ℕ × ℝ) :
    (List.range l.length).map (fun i => l.getD i d) = l := by
  apply List.ext_getElem
  · simp
  · intro i h1 h2
    simp only [List.getElem_map, List.getElem_range]
    exact List.getD_eq_getElem _ _ h2

theorem decodeMat_encode_nil (m : Mat) (hm : m.WF) :
    decodeMat (encodeMat m) = some (m, []) := by
  have h := decodeMat_encode m hm []
  rwa [List.append_nil] at h

theorem export_bounds_aux (nsd mc ct m v : ℝ) (hnsd : 0 ≤ nsd) (hmc : 0 ≤ mc) :
    exportLower nsd mc ct m v ≤ exportCenter mc ct m ∧
    exportCenter mc ct m ≤ exportUpper nsd mc ct m v := by
  have hdev : 0 ≤ nsd * Real.sqrt v := mul_nonneg hnsd (Real.sqrt_nonneg v)
  unfold exportLower exportCenter exportUpper
  constructor
  · exact mul_le_mul_of_nonneg_right (by linarith) hmc
  · exact mul_le_mul_of_nonneg_right (by linarith) hmc

/-! ## Concrete instances used by witnesses and counterexamples -/

/-- The statistic of the spec's concrete scenario: 2 components, 1 query
point, means 10 and 20, variances 4 and 1. -/
def stat2x1 : MeanVariancePairMatrix :=
  ⟨2, 1, fun k _ => if k = 0 then 10 else 20, fun k _ => if k = 0 then 4 else 1⟩

/-- A result initialized for 2 components and 1 query point. -/
def res2x1 : KpcaResult := defaultResult.Init 2 7 1

/-- A 1 × 1 statistic with mean 0 and variance 1. -/
def statNeg : MeanVariancePairMatrix := ⟨1, 1, fun _ _ => 0, fun _ _ => 1⟩

/-- A result initialized for 1 component and 1 query point. -/
def res1x1 : KpcaResult := defaultResult.Init 1 3 1

/-- A 2 × 2 statistic, larger than (and so mismatching) `res1x1`. -/
def statBig : MeanVariancePairMatrix := ⟨2, 2, fun _ _ => 3, fun _ _ => 1⟩

/-- A 3 × 3 statistic agreeing with `statBig` on every pair it exposes. -/
def statBig2 : MeanVariancePairMatrix := ⟨3, 3, fun _ _ => 3, fun _ _ => 1⟩

/-- The empty statistic container. -/
def statEmpty : MeanVariancePairMatrix := ⟨0, 0, fun _ _ => 0, fun _ _ => 0⟩

/-! ## Claim theorems -/

/-- C1: after a successful `Export(numStandardDeviations,
multiplicativeConstant, correctionTerm, stats)`, every entry `(k, i)` within
the result's bound-matrix extent stores
`center = (mean(k,i) - correctionTerm) * multiplicativeConstant`,
`lower = (mean(k,i) - correctionTerm - numStandardDeviations * sqrt(variance(k,i))) * multiplicativeConstant`
and
`upper = (mean(k,i) - correctionTerm + numStandardDeviations * sqrt(variance(k,i))) * multiplicativeConstant`. -/
theorem export_formula_correct (r r' : KpcaResult)
    (num_standard_deviations mult_const correction_term_in : ℝ)
    (kernel_sum : MeanVariancePairMatrix)
    (h : r.Export num_standard_deviations mult_const correction_term_in
      kernel_sum = some r')
    (k i : ℕ) (hk : k < r.kpca_projections.n_rows)
    (hi : i < r.kpca_projections.n_cols) :
    r'.kpca_projections.at_ k i =
      (kernel_sum.sample_mean k i - correction_term_in) * mult_const ∧
    r'.kpca_projections_l.at_ k i =
      (kernel_sum.sample_mean k i - correction_term_in -
        num_standard_deviations *
          Real.sqrt (kernel_sum.sample_mean_variance k i)) * mult_const ∧
    r'.kpca_projections_u.at_ k i =
      (kernel_sum.sample_mean k i - correction_term_in +
        num_standard_deviations *
          Real.sqrt (kernel_sum.sample_mean_variance k i)) * mult_const := by
  obtain ⟨hl, hc, hu⟩ := KpcaResult.Export_eq_some _ _ _ _ _ _ h
  rw [hl, hc, hu, Mat.build_at _ _ _ _ _ hk hi, Mat.build_at _ _ _ _ _ hk hi,
    Mat.build_at _ _ _ _ _ hk hi]
  exact ⟨rfl, rfl, rfl⟩

/-- C1 witness: the spec's concrete scenario — means (10, 20), variances
(4, 1), `numStandardDeviations = 2`, `multiplicativeConstant = 1`,
`correctionTerm = 0` yield center (10, 20), lower (6, 18), upper (14, 22). -/
theorem export_formula_correct_witness :
    (res2x1.Export 2 1 0 stat2x1).isSome = true ∧
    ((res2x1.Export 2 1 0 stat2x1).getD defaultResult).kpca_projections.at_ 0 0 = 10 ∧
    ((res2x1.Export 2 1 0 stat2x1).getD defaultResult).kpca_projections.at_ 1 0 = 20 ∧
    ((res2x1.Export 2 1 0 stat2x1).getD defaultResult).kpca_projections_l.at_ 0 0 = 6 ∧
    ((res2x1.Export 2 1 0 stat2x1).getD defaultResult).kpca_projections_l.at_ 1 0 = 18 ∧
    ((res2x1.Export 2 1 0 stat2x1).getD defaultResult).kpca_projections_u.at_ 0 0 = 14 ∧
    ((res2x1.Export 2 1 0 stat2x1).getD defaultResult).kpca_projections_u.at_ 1 0 = 22 := by
  have hsome : (res2x1.Export 2 1 0 stat2x1).isSome = true := by
    unfold KpcaResult.Export
    rw [if_pos (by decide)]
    rfl
  cases hE : res2x1.Export 2 1 0 stat2x1 with
  | none => rw [hE] at hsome; cases hsome
  | some r' =>
    have h00 := export_formula_correct res2x1 r' 2 1 0 stat2x1 hE 0 0
      (by decide) (by decide)
    have h10 := export_formula_correct res2x1 r' 2 1 0 stat2x1 hE 1 0
      (by decide) (by decide)
    refine ⟨rfl, ?_, ?_, ?_, ?_, ?_, ?_⟩ <;>
      simp only [Option.getD_some]
    · rw [h00.1]; norm_num [stat2x1]
    · rw [h10.1]; norm_num [stat2x1]
    · rw [h00.2.1]; norm_num [stat2x1, sqrtFour]
    · rw [h10.2.1]; norm_num [stat2x1, Real.sqrt_one]
    · rw [h00.2.2]; norm_num [stat2x1, sqrtFour]
    · rw [h10.2.2]; norm_num [stat2x1, Real.sqrt_one]

/-- C3: whenever every variance of the statistic container is nonnegative,
`numStandardDeviations ≥ 0` and `multiplicativeConstant ≥ 0`, a successful
`Export` stores matrices with `lower[k,i] ≤ center[k,i] ≤ upper[k,i]` at
every (component, query-point) pair of the extent. -/
theorem export_bounds_ordered (r r' : KpcaResult)
    (num_standard_deviations mult_const correction_term_in : ℝ)
    (kernel_sum : MeanVariancePairMatrix)
    (hnsd : 0 ≤ num_standard_deviations) (hmc : 0 ≤ mult_const)
    (hvar : ∀ k i, 0 ≤ kernel_sum.sample_mean_variance k i)
    (h : r.Export num_standard_deviations mult_const correction_term_in
      kernel_sum = some r')
    (k i : ℕ) (hk : k < r.kpca_projections.n_rows)
    (hi : i < r.kpca_projections.n_cols) :
    r'.kpca_projections_l.at_ k i ≤ r'.kpca_projections.at_ k i ∧
    r'.kpca_projections.at_ k i ≤ r'.kpca_projections_u.at_ k i := by
  obtain ⟨hl, hc, hu⟩ := KpcaResult.Export_eq_some _ _ _ _ _ _ h
  rw [hl, hc, hu, Mat.build_at _ _ _ _ _ hk hi, Mat.build_at _ _ _ _ _ hk hi,
    Mat.build_at _ _ _ _ _ hk hi]
  exact export_bounds_aux _ _ _ _ _ hnsd hmc

/-- C3 witness: the ordering at the spec's concrete scenario. -/
theorem export_bounds_ordered_witness :
    (0:ℝ) ≤ 2 ∧ (0:ℝ) ≤ 1 ∧ (∀ k i, 0 ≤ stat2x1.sample_mean_variance k i) ∧
    (res2x1.Export 2 1 0 stat2x1).isSome = true ∧
    ((res2x1.Export 2 1 0 stat2x1).getD defaultResult).kpca_projections_l.at_ 0 0 ≤
      ((res2x1.Export 2 1 0 stat2x1).getD defaultResult).kpca_projections.at_ 0 0 ∧
    ((res2x1.Export 2 1 0 stat2x1).getD defaultResult).kpca_projections.at_ 0 0 ≤
      ((res2x1.Export 2 1 0 stat2x1).getD defaultResult).kpca_projections_u.at_ 0 0 := by
  have hvar : ∀ k i, 0 ≤ stat2x1.sample_mean_variance k i := by
    intro k i
    show (0:ℝ) ≤ if k = 0 then 4 else 1
    split <;> norm_num
  have hsome : (res2x1.Export 2 1 0 stat2x1).isSome = true := by
    unfold KpcaResult.Export
    rw [if_pos (by decide)]
    rfl
  cases hE : res2x1.Export 2 1 0 stat2x1 with
  | none => rw [hE] at hsome; cases hsome
  | some r' =>
    have h00 := export_bounds_ordered res2x1 r' 2 1 0 stat2x1 (by norm_num)
      (by norm_num) hvar hE 0 0 (by decide) (by decide)
    exact ⟨by norm_num, by norm_num, hvar, rfl,
      by simpa only [Option.getD_some] using h00.1,
      by simpa only [Option.getD_some] using h00.2⟩

/-- C4 counterexample: with `multiplicativeConstant = -1` (and
`numStandardDeviations = 1 ≥ 0`, variance `1 ≥ 0`) the exported lower bound
exceeds the exported center, so the invariant fails without a sign
condition on the multiplicative constant. -/
theorem export_bounds_negative_const_cex :
    (res1x1.Export 1 (-1) 0 statNeg).isSome = true ∧
    ¬ (((res1x1.Export 1 (-1) 0 statNeg).getD defaultResult).kpca_projections_l.at_ 0 0 ≤
        ((res1x1.Export 1 (-1) 0 statNeg).getD defaultResult).kpca_projections.at_ 0 0) := by
  have hsome : (res1x1.Export 1 (-1) 0 statNeg).isSome = true := by
    unfold KpcaResult.Export
    rw [if_pos (by decide)]
    rfl
  cases hE : res1x1.Export 1 (-1) 0 statNeg with
  | none => rw [hE] at hsome; cases hsome
  | some r' =>
    obtain ⟨hl, hc, _⟩ := KpcaResult.Export_eq_some _ _ _ _ _ _ hE
    refine ⟨rfl, ?_⟩
    simp only [Option.getD_some]
    rw [hl, hc, Mat.build_at _ _ _ _ _ (by decide) (by decide),
      Mat.build_at _ _ _ _ _ (by decide) (by decide)]
    unfold exportLower exportCenter
    show ¬ ((0 - 0 - 1 * Real.sqrt (statNeg.sample_mean_variance 0 0)) * (-1) ≤
      (0 - 0) * (-1))
    norm_num [statNeg, Real.sqrt_one]

/-- C4 (amended): with the additional requirement
`multiplicativeConstant ≥ 0`, after a successful `Export` with
`numStandardDeviations ≥ 0` and `variance(k,i) ≥ 0` the entry `(k, i)`
satisfies `lower ≤ center ≤ upper`. -/
theorem export_bounds_invariant_nonneg_const (r r' : KpcaResult)
    (num_standard_deviations mult_const correction_term_in : ℝ)
    (kernel_sum : MeanVariancePairMatrix)
    (hnsd : 0 ≤ num_standard_deviations) (hmc : 0 ≤ mult_const)
    (h : r.Export num_standard_deviations mult_const correction_term_in
      kernel_sum = some r')
    (k i : ℕ) (hk : k < r.kpca_projections.n_rows)
    (hi : i < r.kpca_projections.n_cols)
    (hv : 0 ≤ kernel_sum.sample_mean_variance k i) :
    r'.kpca_projections_l.at_ k i ≤ r'.kpca_projections.at_ k i ∧
    r'.kpca_projections.at_ k i ≤ r'.kpca_projections_u.at_ k i := by
  obtain ⟨hl, hc, hu⟩ := KpcaResult.Export_eq_some _ _ _ _ _ _ h
  rw [hl, hc, hu, Mat.build_at _ _ _ _ _ hk hi, Mat.build_at _ _ _ _ _ hk hi,
    Mat.build_at _ _ _ _ _ hk hi]
  exact export_bounds_aux _ _ _ _ _ hnsd hmc

/-- C4 (amended) witness: the same 1 × 1 input as the counterexample but
with `multiplicativeConstant = 1 ≥ 0`. -/
theorem export_bounds_invariant_nonneg_const_witness :
    (0:ℝ) ≤ 1 ∧ 0 ≤ statNeg.sample_mean_variance 0 0 ∧
    (res1x1.Export 1 1 0 statNeg).isSome = true ∧
    ((res1x1.Export 1 1 0 statNeg).getD defaultResult).kpca_projections_l.at_ 0 0 ≤
      ((res1x1.Export 1 1 0 statNeg).getD defaultResult).kpca_projections.at_ 0 0 ∧
    ((res1x1.Export 1 1 0 statNeg).getD defaultResult).kpca_projections.at_ 0 0 ≤
      ((res1x1.Export 1 1 0 statNeg).getD defaultResult).kpca_projections_u.at_ 0 0 := by
  have hsome : (res1x1.Export 1 1 0 statNeg).isSome = true := by
    unfold KpcaResult.Export
    rw [if_pos (by decide)]
    rfl
  cases hE : res1x1.Export 1 1 0 statNeg with
  | none => rw [hE] at hsome; cases hsome
  | some r' =>
    have h00 := export_bounds_invariant_nonneg_const res1x1 r' 1 1 0 statNeg
      (by norm_num) (by norm_num) hE 0 0 (by decide) (by decide)
      (by norm_num [statNeg])
    exact ⟨by norm_num, by norm_num [statNeg], rfl,
      by simpa only [Option.getD_some] using h00.1,
      by simpa only [Option.getD_some] using h00.2⟩

/-- C5 counterexample: the statistic container `statBig` is 2 × 2 while the
result's bound matrices are 1 × 1 — the extents mismatch — yet `Export`
proceeds and succeeds instead of failing with a dimension-mismatch error. -/
theorem export_mismatch_proceeds_cex :
    (statBig.n_rows ≠ res1x1.kpca_projections.n_rows ∨
      statBig.n_cols ≠ res1x1.kpca_projections.n_cols) ∧
    (res1x1.Export 1 1 0 statBig).isSome = true := by
  constructor
  · left; decide
  · unfold KpcaResult.Export
    rw [if_pos (by decide)]
    rfl

/-- C5 (amended): `Export` performs no shape validation at all — it succeeds
exactly when every read it performs (at pairs within the result's own
extent) is in range in the container, regardless of whether the two extents
match; a strictly smaller container makes it perform an out-of-range access
rather than raise an error. -/
theorem export_success_iff_reads_in_range (r : KpcaResult)
    (num_standard_deviations mult_const correction_term_in : ℝ)
    (kernel_sum : MeanVariancePairMatrix) :
    (r.Export num_standard_deviations mult_const correction_term_in
      kernel_sum).isSome = true ↔
      ∀ k < r.kpca_projections.n_rows, ∀ i < r.kpca_projections.n_cols,
        k < kernel_sum.n_rows ∧ i < kernel_sum.n_cols := by
  unfold KpcaResult.Export
  split
  · rename_i hguard
    constructor
    · intro _ k hk i hi
      exact (MeanVariancePairMatrix.get_isSome kernel_sum k i).mp (hguard k hk i hi)
    · intro _
      rfl
  · rename_i hguard
    constructor
    · intro habs
      simp at habs
    · intro hall
      exact absurd
        (fun k hk i hi =>
          (MeanVariancePairMatrix.get_isSome kernel_sum k i).mpr (hall k hk i hi))
        hguard

/-- C10: `Export` takes its iteration extent from the result's own center
matrix and reads the statistic container only at pairs inside that extent:
any container covering the extent makes every access in bounds (success);
the result depends only on the container's values at those pairs; and a
container smaller than the extent reaches the out-of-range branch. -/
theorem export_reads_only_center_extent :
    (∀ (r : KpcaResult) (nsd mc ct : ℝ) (s : MeanVariancePairMatrix),
      r.kpca_projections.n_rows ≤ s.n_rows →
      r.kpca_projections.n_cols ≤ s.n_cols →
      (r.Export nsd mc ct s).isSome = true) ∧
    (∀ (r : KpcaResult) (nsd mc ct : ℝ) (s t : MeanVariancePairMatrix),
      r.kpca_projections.n_rows ≤ s.n_rows →
      r.kpca_projections.n_cols ≤ s.n_cols →
      r.kpca_projections.n_rows ≤ t.n_rows →
      r.kpca_projections.n_cols ≤ t.n_cols →
      (∀ k < r.kpca_projections.n_rows, ∀ i < r.kpca_projections.n_cols,
        s.sample_mean k i = t.sample_mean k i ∧
        s.sample_mean_variance k i = t.sample_mean_variance k i) →
      r.Export nsd mc ct s = r.Export nsd mc ct t) ∧
    res1x1.Export 1 1 0 statEmpty = none := by
  have hcov : ∀ (r : KpcaResult) (s : MeanVariancePairMatrix),
      r.kpca_projections.n_rows ≤ s.n_rows →
      r.kpca_projections.n_cols ≤ s.n_cols →
      ∀ k < r.kpca_projections.n_rows, ∀ i < r.kpca_projections.n_cols,
        (s.get k i).isSome = true := by
    intro r s h1 h2 k hk i hi
    exact (MeanVariancePairMatrix.get_isSome s k i).mpr ⟨by omega, by omega⟩
  refine ⟨?_, ?_, ?_⟩
  · intro r nsd mc ct s h1 h2
    unfold KpcaResult.Export
    rw [if_pos (hcov r s h1 h2)]
    rfl
  · intro r nsd mc ct s t hs1 hs2 ht1 ht2 hagree
    unfold KpcaResult.Export
    rw [if_pos (hcov r s hs1 hs2), if_pos (hcov r t ht1 ht2)]
    have hl : Mat.build r.kpca_projections.n_rows r.kpca_projections.n_cols
        (fun k i => exportLower nsd mc ct (s.sample_mean k i)
          (s.sample_mean_variance k i)) =
        Mat.build r.kpca_projections.n_rows r.kpca_projections.n_cols
        (fun k i => exportLower nsd mc ct (t.sample_mean k i)
          (t.sample_mean_variance k i)) :=
      Mat.build_congr _ _ _ _ (fun k hk i hi => by
        rw [(hagree k hk i hi).1, (hagree k hk i hi).2])
    have hc : Mat.build r.kpca_projections.n_rows r.kpca_projections.n_cols
        (fun k i => exportCenter mc ct (s.sample_mean k i)) =
        Mat.build r.kpca_projections.n_rows r.kpca_projections.n_cols
        (fun k i => exportCenter mc ct (t.sample_mean k i)) :=
      Mat.build_congr _ _ _ _ (fun k hk i hi => by rw [(hagree k hk i hi).1])
    have hu : Mat.build r.kpca_projections.n_rows r.kpca_projections.n_cols
        (fun k i => exportUpper nsd mc ct (s.sample_mean k i)
          (s.sample_mean_variance k i)) =
        Mat.build r.kpca_projections.n_rows r.kpca_projections.n_cols
        (fun k i => exportUpper nsd mc ct (t.sample_mean k i)
          (t.sample_mean_variance k i)) :=
      Mat.build_congr _ _ _ _ (fun k hk i hi => by
        rw [(hagree k hk i hi).1, (hagree k hk i hi).2])
    rw [hl, hc, hu]
  · unfold KpcaResult.Export
    rw [if_neg (by decide)]

/-- C10 witness: a 2 × 2 container covers the 1 × 1 result, so the export
succeeds, and replacing it by a 3 × 3 container with the same values on the
read pair leaves the result unchanged. -/
theorem export_reads_only_center_extent_witness :
    (res1x1.Export 1 1 0 statBig).isSome = true ∧
    res1x1.Export 1 1 0 statBig = res1x1.Export 1 1 0 statBig2 :=
  ⟨export_reads_only_center_extent.1 res1x1 1 1 0 statBig (by decide) (by decide),
    export_reads_only_center_extent.2.1 res1x1 1 1 0 statBig statBig2
      (by decide) (by decide) (by decide) (by decide)
      (fun k _ i _ => ⟨rfl, rfl⟩)⟩

/-- C8: after `Init(C, R, Q)` — from any prior state — all three bound
matrices are `C × Q` with every entry zero, and `Init` with the same
dimensions is idempotent (a second call only re-zeroes). -/
theorem init_zeroes_and_idempotent (r : KpcaResult)
    (num_components num_reference_points query_points : ℕ) :
    (r.Init num_components num_reference_points query_points).kpca_projections_l =
      ⟨num_components, query_points, List.replicate (num_components * query_points) 0⟩ ∧
    (r.Init num_components num_reference_points query_points).kpca_projections =
      ⟨num_components, query_points, List.replicate (num_components * query_points) 0⟩ ∧
    (r.Init num_components num_reference_points query_points).kpca_projections_u =
      ⟨num_components, query_points, List.replicate (num_components * query_points) 0⟩ ∧
    (∀ k i, (r.Init num_components num_reference_points query_points).kpca_projections_l.at_ k i = 0) ∧
    (∀ k i, (r.Init num_components num_reference_points query_points).kpca_projections.at_ k i = 0) ∧
    (∀ k i, (r.Init num_components num_reference_points query_points).kpca_projections_u.at_ k i = 0) ∧
    (r.Init num_components num_reference_points query_points).Init
        num_components num_reference_points query_points =
      r.Init num_components num_reference_points query_points :=
  ⟨rfl, rfl, rfl,
    fun k i => Mat.at_replicate_zero _ _ _ k i,
    fun k i => Mat.at_replicate_zero _ _ _ k i,
    fun k i => Mat.at_replicate_zero _ _ _ k i,
    rfl⟩

/-- Eigenvalues of the spec's eigen scenario. -/
def valsSpec : List ℝ := [3, 9, 1]

/-- Eigenvectors of the spec's eigen scenario: a 1 × 3 matrix whose columns
are 7, 8, 9. -/
def vecsSpec : Mat := ⟨1, 3, [7, 8, 9]⟩

/-- A sort result for `valsSpec.enum` under the value-descending
comparator. -/
def sortedSpec : List (ℕ × ℝ) := [(1, 9), (0, 3), (2, 1)]

/-- A pair of tied eigenvalues. -/
def valsTied : List ℝ := [5, 5]

/-- Distinct eigenvector columns (1 and 2) for the tied eigenvalues. -/
def vecsTied : Mat := ⟨1, 2, [1, 2]⟩

/-- C2: for an input of `n` eigenvalues paired with an `n`-column
eigenvector matrix, every possible result of `set_eigendecomposition_results`
stores an eigenvalue sequence that is a permutation of the input, sorted
non-increasing, of length equal to the full input column count (no
truncation), and for each output index the eigenvector column equals the
input column at the original index recorded for that eigenvalue. -/
theorem eigen_reorder_sorted_permutation (r : KpcaResult)
    (kernel_eigenvalues_in : List ℝ) (covariance_eigenvectors_in : Mat)
    (sorted_eigenvalues : List (ℕ × ℝ))
    (hn : kernel_eigenvalues_in.length = covariance_eigenvectors_in.n_cols)
    (hs : IsSortOutput kernel_eigenvalues_in.enum sorted_eigenvalues) :
    (r.set_eigendecomposition_results kernel_eigenvalues_in
      covariance_eigenvectors_in sorted_eigenvalues).kernel_eigenvalues.Perm
        kernel_eigenvalues_in ∧
    (r.set_eigendecomposition_results kernel_eigenvalues_in
      covariance_eigenvectors_in sorted_eigenvalues).kernel_eigenvalues.Pairwise
        (fun a b => b ≤ a) ∧
    (r.set_eigendecomposition_results kernel_eigenvalues_in
      covariance_eigenvectors_in sorted_eigenvalues).kernel_eigenvalues.length =
      covariance_eigenvectors_in.n_cols ∧
    (r.set_eigendecomposition_results kernel_eigenvalues_in
      covariance_eigenvectors_in sorted_eigenvalues).covariance_eigenvectors.n_rows =
      covariance_eigenvectors_in.n_rows ∧
    (r.set_eigendecomposition_results kernel_eigenvalues_in
      covariance_eigenvectors_in sorted_eigenvalues).covariance_eigenvectors.n_cols =
      covariance_eigenvectors_in.n_cols ∧
    (∀ i < covariance_eigenvectors_in.n_cols,
      ∀ j < covariance_eigenvectors_in.n_rows,
        (r.set_eigendecomposition_results kernel_eigenvalues_in
          covariance_eigenvectors_in sorted_eigenvalues).covariance_eigenvectors.at_ j i =
          covariance_eigenvectors_in.at_ j (sorted_eigenvalues.getD i (0, 0)).1) := by
  have hlen : sorted_eigenvalues.length = covariance_eigenvectors_in.n_cols := by
    rw [hs.1.length_eq, List.enum_length, hn]
  have hkey : (r.set_eigendecomposition_results kernel_eigenvalues_in
      covariance_eigenvectors_in sorted_eigenvalues).kernel_eigenvalues =
      sorted_eigenvalues.map Prod.snd := by
    show (List.range covariance_eigenvectors_in.n_cols).map
        (fun i => (sorted_eigenvalues.getD i (0, 0)).2) = _
    rw [← hlen,
      show (fun i => (sorted_eigenvalues.getD i ((0 : ℕ), (0 : ℝ))).2) =
        Prod.snd ∘ (fun i => sorted_eigenvalues.getD i (0, 0)) from rfl,
      ← List.map_map, map_getD_range]
  refine ⟨?_, ?_, ?_, rfl, rfl, ?_⟩
  · rw [hkey]
    have hp := hs.1.map Prod.snd
    rwa [List.enum_map_snd] at hp
  · rw [hkey]
    exact hs.2.map _ (fun a b hab => hab)
  · rw [hkey, List.length_map, hlen]
  · intro i hi j hj
    show (Mat.build _ _ _).at_ j i = _
    rw [Mat.build_at _ _ _ _ _ hj hi]

/-- C2 witness: the spec's eigen scenario — eigenvalues (3, 9, 1) with
columns (7, 8, 9) reorder to eigenvalues (9, 3, 1) with columns (8, 7, 9). -/
theorem eigen_reorder_sorted_permutation_witness :
    valsSpec.length = vecsSpec.n_cols ∧
    IsSortOutput valsSpec.enum sortedSpec ∧
    (defaultResult.set_eigendecomposition_results valsSpec vecsSpec
      sortedSpec).kernel_eigenvalues.Perm valsSpec ∧
    (defaultResult.set_eigendecomposition_results valsSpec vecsSpec
      sortedSpec).kernel_eigenvalues.Pairwise (fun a b => b ≤ a) := by
  have h1 : valsSpec.length = vecsSpec.n_cols := rfl
  have h2 : IsSortOutput valsSpec.enum sortedSpec := by
    constructor
    · show List.Perm [((1:ℕ), (9:ℝ)), (0, 3), (2, 1)] [(0, 3), (1, 9), (2, 1)]
      exact List.Perm.swap _ _ _
    · show List.Pairwise _ [((1:ℕ), (9:ℝ)), (0, 3), (2, 1)]
      norm_num [List.pairwise_cons]
  have h3 := eigen_reorder_sorted_permutation defaultResult valsSpec vecsSpec
    sortedSpec h1 h2
  exact ⟨h1, h2, h3.1, h3.2.1⟩

/-- C6 (code bug): the comparator handed to `std::sort` compares eigenvalues
only, so for tied eigenvalues both relative orders are admissible sort
results; in particular the descending-index order `[(1,5), (0,5)]` is
admissible and stores a different eigenvector matrix than the
ascending-index order, so the tied pairs are not deterministically ordered
by original index ascending. -/
theorem eigen_tie_order_unspecified :
    IsSortOutput valsTied.enum [((1 : ℕ), (5 : ℝ)), (0, 5)] ∧
    IsSortOutput valsTied.enum [((0 : ℕ), (5 : ℝ)), (1, 5)] ∧
    (defaultResult.set_eigendecomposition_results valsTied vecsTied
      [((1 : ℕ), (5 : ℝ)), (0, 5)]).covariance_eigenvectors.at_ 0 0 = 2 ∧
    (defaultResult.set_eigendecomposition_results valsTied vecsTied
      [((0 : ℕ), (5 : ℝ)), (1, 5)]).covariance_eigenvectors.at_ 0 0 = 1 ∧
    (defaultResult.set_eigendecomposition_results valsTied vecsTied
      [((1 : ℕ), (5 : ℝ)), (0, 5)]).covariance_eigenvectors.at_ 0 0 ≠
    (defaultResult.set_eigendecomposition_results valsTied vecsTied
      [((0 : ℕ), (5 : ℝ)), (1, 5)]).covariance_eigenvectors.at_ 0 0 := by
  have e1 : (defaultResult.set_eigendecomposition_results valsTied vecsTied
      [((1 : ℕ), (5 : ℝ)), (0, 5)]).covariance_eigenvectors.at_ 0 0 = 2 := rfl
  have e2 : (defaultResult.set_eigendecomposition_results valsTied vecsTied
      [((0 : ℕ), (5 : ℝ)), (1, 5)]).covariance_eigenvectors.at_ 0 0 = 1 := rfl
  refine ⟨⟨List.Perm.swap _ _ _, ?_⟩, ⟨List.Perm.refl _, ?_⟩, e1, e2, ?_⟩
  · norm_num [List.pairwise_cons]
  · norm_num [List.pairwise_cons]
  · rw [e1, e2]
    norm_num

/-- C7: serializing a populated result and deserializing into a freshly
default-constructed result reproduces the lower, center and upper bound
matrices and the eigenvalue/eigenvector fields identically, transferred in
the fixed order lower, center, upper, eigenvalues, eigenvectors, while the
reference projections and final components are excluded from the wire
format and stay empty on the deserialized side. -/
theorem serialize_roundtrip (r : KpcaResult)
    (h1 : r.kpca_projections_l.WF) (h2 : r.kpca_projections.WF)
    (h3 : r.kpca_projections_u.WF) (h4 : r.covariance_eigenvectors.WF) :
    KpcaResult.load r.save =
      some ⟨r.kpca_projections_l, r.kpca_projections, r.kpca_projections_u,
        r.kernel_eigenvalues, r.covariance_eigenvectors, emptyMat, emptyMat⟩ := by
  show KpcaResult.load
      (encodeMat r.kpca_projections_l ++ encodeMat r.kpca_projections ++
        encodeMat r.kpca_projections_u ++ encodeVec r.kernel_eigenvalues ++
        encodeMat r.covariance_eigenvectors) = _
  rw [List.append_assoc, List.append_assoc, List.append_assoc]
  unfold KpcaResult.load
  rw [decodeMat_encode _ h1, Option.some_bind, decodeMat_encode _ h2,
    Option.some_bind, decodeMat_encode _ h3, Option.some_bind,
    decodeVec_encode, Option.some_bind, decodeMat_encode_nil _ h4,
    Option.some_bind]
  rfl

/-- A fully populated result used to witness the round trip. -/
def resPop : KpcaResult :=
  ⟨⟨1, 1, [10]⟩, ⟨1, 1, [11]⟩, ⟨1, 1, [12]⟩, [13], ⟨1, 1, [14]⟩,
    ⟨1, 1, [15]⟩, ⟨1, 1, [16]⟩⟩

/-- C7 witness: the round trip at a concrete populated result: the five
serialized fields come back identical and the two excluded fields are empty
afterwards even though they were populated before. -/
theorem serialize_roundtrip_witness :
    resPop.kpca_projections_l.WF ∧ resPop.kpca_projections.WF ∧
    resPop.kpca_projections_u.WF ∧ resPop.covariance_eigenvectors.WF ∧
    KpcaResult.load resPop.save =
      some ⟨resPop.kpca_projections_l, resPop.kpca_projections,
        resPop.kpca_projections_u, resPop.kernel_eigenvalues,
        resPop.covariance_eigenvectors, emptyMat, emptyMat⟩ :=
  ⟨rfl, rfl, rfl, rfl, serialize_roundtrip resPop rfl rfl rfl rfl⟩

/-- C9 (code bug): `Print` never checks the stream returned by `fopen`; when
a destination cannot be opened it passes the `NULL` stream to
`fprintf`/`fclose` (undefined behavior) and in no case produces an error
value identifying the path. -/
theorem print_unopenable_not_ioerror :
    defaultResult.Print (fun _ => false) "kpca_components.txt"
      "kpca_projections.txt" = EmitOutcome.undefinedBehavior ∧
    ∀ p : String,
      defaultResult.Print (fun _ => false) "kpca_components.txt"
        "kpca_projections.txt" ≠ EmitOutcome.ioError p :=
  ⟨rfl, fun p h =>
    EmitOutcome.noConfusion
      (show EmitOutcome.undefinedBehavior = EmitOutcome.ioError p from h)⟩
